import Mathlib

set_option maxHeartbeats 1000000

namespace UrlStatusChecker

/-! Shallow embedding of `url_status_checker.py`.

The HTTP transport (`requests.get`) is abstracted by a `Transport`: for each
0-based attempt number it yields either a response or one of the two caught
exception classes, and consumes an abstract amount of wall-clock time
(`Nat` timestamps stand for `time.time()` values). Everything else is
translated directly from the source. -/

/-- Result of one call of the HTTP transport (`requests.get`) during a probe:
either a response carrying status code, final URL after redirect following,
and response headers, or one of the two exception classes caught in
`get_url_status` (`requests.exceptions.Timeout`,
`requests.exceptions.RequestException`). -/
inductive AttemptOutcome where
  | ok (status_code : Int) (final_url : String) (resp_headers : List (String × String))
  | timeout
  | reqError (msg : String)
deriving Repr, DecidableEq

/-- Whether an attempt outcome is a transport success. -/
def AttemptOutcome.isOk : AttemptOutcome → Bool
  | .ok _ _ _ => true
  | .timeout => false
  | .reqError _ => false

/-- Abstraction of the HTTP transport over the attempts of one probe:
`outcome i` is what `requests.get` produces on attempt number `i` (0-based,
with the timeout, headers and proxy arguments absorbed into the transport),
and `duration i` is the wall-clock time that attempt consumes. `time.sleep`
advances the clock by exactly the requested delay. -/
structure Transport where
  outcome : Nat → AttemptOutcome
  duration : Nat → Nat

/-- Shape of the 4-tuple returned by `get_url_status`:
`(status_code, redirection, load_time, response_headers)`, with Python's
`None` modelled by `Option.none`. On the failure path the second slot holds
the error description string. -/
structure ProbeReturn where
  status_code : Option Int
  redirection : String
  load_time : Option Nat
  resp_headers : Option (List (String × String))
deriving Repr, DecidableEq

/-- Return value of `get_url_status` together with the observable trace of
the call: how many HTTP attempts were issued and how many `time.sleep`
calls were made (each sleep lasting the configured retry delay). -/
structure ProbeTrace where
  ret : ProbeReturn
  attempts : Nat
  sleeps : Nat
deriving Repr, DecidableEq

/-- Embedding of the `while attempt < retries` loop of `get_url_status`.
The loop counter is compiled to the fuel argument `fuel = retries - attempt`
(so `fuel = 0` is exactly the loop guard `attempt < retries` failing, and the
source's `attempt += 1; if attempt < retries` test is `fuel - 1 > 0`);
`attempt` is still passed explicitly since the transport is indexed by it.
`clock` is the current `time.time()` value, with `start_time = 0` at entry
to `get_url_status`, so the success branch's
`load_time = time.time() - start_time` is the clock after the succeeding
attempt. On a caught exception the loop either sleeps `retry_delay` and
continues, or returns `(None, "Max retries reached", None, None)`. -/
def probeLoop (url : String) (tr : Transport) (retry_delay : Nat) :
    Nat → Nat → Nat → ProbeTrace
  | 0, _, _ => ⟨⟨none, "Max retries reached", none, none⟩, 0, 0⟩
  | fuel + 1, attempt, clock =>
    match tr.outcome attempt with
    | .ok status_code final_url resp_headers =>
        let load_time := clock + tr.duration attempt
        let redirection :=
          if url ≠ final_url then "Redirected to: " ++ final_url
          else "No redirection"
        ⟨⟨some status_code, redirection, some load_time, some resp_headers⟩, 1, 0⟩
    | .timeout | .reqError _ =>
        let clock2 := clock + tr.duration attempt
        match fuel with
        | 0 => ⟨⟨none, "Max retries reached", none, none⟩, 1, 0⟩
        | f + 1 =>
            let rest := probeLoop url tr retry_delay (f + 1) (attempt + 1) (clock2 + retry_delay)
            ⟨rest.ret, rest.attempts + 1, rest.sleeps + 1⟩

/-- Embedding of `get_url_status(url, timeout, headers, proxy, retries,
retry_delay)`. The timeout, headers and proxy arguments are consumed only by
`requests.get` and are absorbed into `tr`; `retries` keeps the Python `int`
type (`main` may pass it any value `validate_args` accepts), the loop runs
`max retries 0` iterations at most. -/
def get_url_status (url : String) (tr : Transport) (retries : Int)
    (retry_delay : Nat) : ProbeTrace :=
  probeLoop url tr retry_delay retries.toNat 0 0

/-- Per-URL record dictionary assembled in the collection loop of
`check_urls`: the key `URL` is always set; a failed probe (status code
`None`) gets only the key `Error`; a successful probe gets
`Status Code`, `Redirection`, `Load Time` and, only when `verbose` is set
and the header dictionary is truthy (non-empty), `Response Headers`.
An `Option.none` field models an absent dictionary key. -/
structure UrlRecord where
  url : String
  error : Option String
  status_code : Option Int
  redirection : Option String
  load_time : Option Nat
  resp_headers : Option (List (String × String))
deriving Repr, DecidableEq

/-- Record construction of `check_urls` for one completed future
(lines `result = {"URL": url}` through the verbose headers line). The
`Load Time` string formatting keeps the abstract `Nat` value. -/
def buildRecord (verbose : Bool) (url : String) (pr : ProbeReturn) : UrlRecord :=
  match pr.status_code with
  | none => ⟨url, some pr.redirection, none, none, none, none⟩
  | some sc =>
      let hdrs :=
        match pr.resp_headers with
        | some h => if verbose ∧ h ≠ [] then some h else none
        | none => none
      ⟨url, none, some sc, some pr.redirection, pr.load_time, hdrs⟩

/-- Python truthiness of the `status_filter` argument, which is either
`None` or an `int` (so `0` is falsy). -/
def pyTruthy : Option Int → Bool
  | none => false
  | some v => v != 0

/-- Python `status_code != status_filter` where either side may be `None`:
`None` is unequal to every `int` and equal to `None`. -/
def pyNe : Option Int → Option Int → Bool
  | some a, some b => a != b
  | none, none => false
  | _, _ => true

/-- Collection loop of `check_urls` over the completed futures, given here
in their completion order: build the per-URL record, skip it when
`status_filter and status_code != status_filter`, otherwise append it. -/
def check_urls (completed : List (String × ProbeReturn)) (verbose : Bool)
    (status_filter : Option Int) : List UrlRecord :=
  match completed with
  | [] => []
  | (url, pr) :: rest =>
      let record := buildRecord verbose url pr
      if pyTruthy status_filter && pyNe pr.status_code status_filter then
        check_urls rest verbose status_filter
      else
        record :: check_urls rest verbose status_filter

/-- Worker-pool size chosen by `check_urls`:
`ThreadPoolExecutor(max_workers=min(len(urls), 10))`. -/
def max_workers (urls : List String) : Nat := min urls.length 10

/-- State of the executor's pool: URLs whose probe has not started, URLs
whose probe is in flight, and URLs whose probe has completed. -/
structure PoolState where
  pending : List String
  running : List String
  done : List String
deriving Repr, DecidableEq

/-- Semantics of a thread pool with `w` workers: a pending task may start
only while fewer than `w` tasks are in flight, and an in-flight task may
finish (in any order, matching `as_completed`). -/
inductive PoolStep (w : Nat) : PoolState → PoolState → Prop
  | start (u : String) (rest : List String) (s : PoolState) :
      s.pending = u :: rest → s.running.length < w →
      PoolStep w s ⟨rest, u :: s.running, s.done⟩
  | finish (u : String) (l r : List String) (s : PoolState) :
      s.running = l ++ u :: r →
      PoolStep w s ⟨s.pending, l ++ r, u :: s.done⟩

/-- Reflexive-transitive closure of `PoolStep` from an initial state. -/
inductive PoolReach (w : Nat) (init : PoolState) : PoolState → Prop
  | refl : PoolReach w init init
  | step {s t : PoolState} : PoolReach w init s → PoolStep w s t →
      PoolReach w init t

/-- Initial pool state of `check_urls`: every URL submitted, none started. -/
def initPool (urls : List String) : PoolState := ⟨urls, [], []⟩

/-- Characters CPython's urlsplit strips from both ends of the input
before parsing: C0 control characters and space (codepoints 0 to 0x20). -/
def isC0OrSpace (c : Char) : Bool := c.toNat ≤ 32

/-- Unsafe bytes CPython's urlsplit deletes everywhere in the input:
tab, carriage return and newline. -/
def isUnsafeUrlByte (c : Char) : Bool := c == '\t' || c == '\r' || c == '\n'

/-- Strip of leading and trailing C0-control-or-space characters. -/
def stripC0Space (l : List Char) : List Char :=
  ((l.dropWhile isC0OrSpace).reverse.dropWhile isC0OrSpace).reverse

/-- Membership in CPython's scheme_chars: ASCII letters, digits, and the
three characters plus, hyphen, dot. -/
def isSchemeChar (c : Char) : Bool :=
  c.isAlpha || c.isDigit || c == '+' || c == '-' || c == '.'

/-- Scheme splitting of CPython's urlsplit: if the input has a colon at a
positive index, its first character is an ASCII letter and every character
before the colon is a scheme character, the scheme is the lowercased text
before the colon and the rest follows it; otherwise the scheme is empty and
the input is untouched. -/
def splitScheme (url : List Char) : List Char × List Char :=
  match url.findIdx? (fun c => c == ':') with
  | some i =>
      if 0 < i ∧ (url.headD ' ').isAlpha ∧ (url.take i).all isSchemeChar then
        ((url.take i).map Char.toLower, url.drop (i + 1))
      else ([], url)
  | none => ([], url)

/-- Netloc splitting of CPython's _splitnetloc after the leading two
slashes have been dropped: the netloc runs to the first of the three
delimiters slash, question mark or hash. -/
def splitnetloc (url : List Char) : List Char × List Char :=
  let netloc := url.takeWhile fun c => !(c == '/' || c == '?' || c == '#')
  (netloc, url.drop netloc.length)

/-- Embedding of urllib.parse.urlparse restricted to the two components
`validate_url` inspects, following CPython's urlsplit: strip leading and
trailing C0-control-or-space characters, delete tab, CR and LF, split off a
scheme, and when the remainder starts with two slashes take the netloc up
to the next slash, question mark or hash, raising ValueError (modelled by
`Except.error`) when the netloc has an unmatched square bracket
(an invalid IPv6 literal). Version-dependent extra validation of the text
inside matched brackets and non-ASCII NFKC checks are not modelled; both
only turn more inputs into ValueError, which `validate_url` maps to the
same result as an absent component. -/
def urlparse (s : String) : Except String (String × String) :=
  let url0 := (stripC0Space s.data).filter fun c => !isUnsafeUrlByte c
  let (scheme, url1) := splitScheme url0
  if url1.take 2 = ['/', '/'] then
    let (netloc, _) := splitnetloc (url1.drop 2)
    if (netloc.contains '[' && !netloc.contains ']') ||
        (netloc.contains ']' && !netloc.contains '[') then
      .error "Invalid IPv6 URL"
    else
      .ok (⟨scheme⟩, ⟨netloc⟩)
  else
    .ok (⟨scheme⟩, "")

/-- Embedding of `validate_url`: parse the URL and test
`all([result.scheme, result.netloc])` (Python string truthiness: non-empty);
a ValueError from parsing yields False. -/
def validate_url (url : String) : Bool :=
  match urlparse url with
  | .ok (scheme, netloc) => scheme != "" && netloc != ""
  | .error _ => false

/-- Command-line arguments of `main` that the core logic consumes, after
argparse has produced them: `type=int` arguments keep the Python `int`
type, optional arguments default to `None` (`Option.none`). The output
file, user agent, proxy and json flags only affect reporting plumbing and
the transport, and are absorbed there. -/
structure Args where
  urls : List String
  timeout : Int
  verbose : Bool
  status_filter : Option Int
  retries : Int
  retry_delay : Int
deriving Repr

/-- Embedding of `validate_args`, returning the boolean outcome together
with the error message logged on the failing check (the function logs one
message and returns False at the first violated condition). -/
def validate_args (a : Args) : Bool × List String :=
  if a.timeout ≤ 0 then (false, ["Timeout must be a positive integer."])
  else if a.retries < 0 then (false, ["Retries cannot be negative."])
  else if a.retry_delay < 0 then (false, ["Retry delay cannot be negative."])
  else (true, [])

/-- Observable outcome of a `main` invocation: aborted by the argument
gate (with the logged message), aborted by the invalid-URL gate (with the
list of URLs reported as invalid), or ran to completion with the collected
records. -/
inductive MainResult where
  | abortedArgs (msgs : List String)
  | abortedUrls (invalid : List String)
  | ran (records : List UrlRecord)
deriving Repr, DecidableEq

/-- Execution of all probes submitted by `check_urls`: per URL the probe
trace of `get_url_status`, plus the total number of HTTP attempts issued
(the network calls). `tr` gives each URL its transport. -/
def runProbes (tr : String → Transport) (a : Args) :
    List (String × ProbeReturn) × Nat :=
  a.urls.foldr
    (fun u acc =>
      let t := get_url_status u (tr u) a.retries a.retry_delay.toNat
      ((u, t.ret) :: acc.1, acc.2 + t.attempts))
    ([], 0)

/-- Embedding of `main` after argparse: the `validate_args` gate, then the
`validate_url` gate over all URLs (logging the invalid ones), then
`check_urls`. The second component counts the HTTP attempts issued during
the run, so an aborted run pairs with `0` network calls. -/
def main (tr : String → Transport) (a : Args) : MainResult × Nat :=
  if (validate_args a).1 = false then (.abortedArgs (validate_args a).2, 0)
  else
    let invalid_urls := a.urls.filter fun u => !validate_url u
    if invalid_urls ≠ [] then (.abortedUrls invalid_urls, 0)
    else
      let probes := runProbes tr a
      (.ran (check_urls probes.1 a.verbose a.status_filter), probes.2)

/-- Transport that fails every attempt with a RequestException whose
description is "boom", each attempt taking one time unit. -/
def trBoom : Transport := ⟨fun _ => .reqError "boom", fun _ => 1⟩

/-- Transport that fails attempt 0 (taking 5 time units) and succeeds from
attempt 1 on with status 200, final URL "u", no headers, in 3 time units. -/
def trFailThenOk : Transport :=
  ⟨fun i => if i = 0 then .reqError "boom" else .ok 200 "u" [],
   fun i => if i = 0 then 5 else 3⟩

/-- Transport that always succeeds with status 200, redirecting to the
fixed final URL "http://b/final". -/
def trRedir : Transport :=
  ⟨fun _ => .ok 200 "http://b/final" [("k", "v")], fun _ => 1⟩

/-- Sample completed-futures list with two successful probes (status 404
and 200) and one failed probe. -/
def exampleCompleted : List (String × ProbeReturn) :=
  [("http://a", ⟨some 404, "No redirection", some 3, some []⟩),
   ("http://b", ⟨some 200, "No redirection", some 2, some [("k", "v")]⟩),
   ("http://c", ⟨none, "Max retries reached", none, none⟩)]

/-- Arguments with an invalid (non-positive) timeout and one valid URL. -/
def argsBadTimeout : Args := ⟨["http://a"], 0, false, none, 3, 2⟩

/-! Helper lemmas about the probe loop. -/

/-- When the transport fails every attempt, the loop spends all its fuel:
it issues one attempt per remaining iteration, sleeps between consecutive
attempts, and ends in the max-retries failure tuple. -/
theorem probeLoop_allFail (url : String) (tr : Transport) (delay : Nat)
    (hfail : ∀ i, (tr.outcome i).isOk = false) :
    ∀ fuel attempt clock, probeLoop url tr delay fuel attempt clock =
      ⟨⟨none, "Max retries reached", none, none⟩, fuel, fuel - 1⟩ := by
  intro fuel
  induction fuel with
  | zero => intro attempt clock; rfl
  | succ f ih =>
    intro attempt clock
    have ho := hfail attempt
    rw [probeLoop]
    cases h : tr.outcome attempt with
    | ok sc fu hs => rw [h] at ho; simp [AttemptOutcome.isOk] at ho
    | timeout =>
        cases f with
        | zero => simp
        | succ f2 => simp [ih]
    | reqError m =>
        cases f with
        | zero => simp
        | succ f2 => simp [ih]

/-- Every value the loop can return is either a full success tuple (status
code, redirection text, load time and headers all populated) or exactly the
max-retries failure tuple. -/
theorem probeLoop_shape (url : String) (tr : Transport) (delay : Nat) :
    ∀ fuel attempt clock,
      (∃ sc lt hs, (probeLoop url tr delay fuel attempt clock).ret =
        ⟨some sc, (probeLoop url tr delay fuel attempt clock).ret.redirection,
          some lt, some hs⟩)
      ∨ (probeLoop url tr delay fuel attempt clock).ret =
        ⟨none, "Max retries reached", none, none⟩ := by
  intro fuel
  induction fuel with
  | zero => intro _ _; right; rfl
  | succ f ih =>
    intro attempt clock
    rw [probeLoop]
    cases h : tr.outcome attempt with
    | ok sc fu hs =>
        left
        exact ⟨sc, clock + tr.duration attempt, hs, rfl⟩
    | timeout =>
        cases f with
        | zero => right; rfl
        | succ f2 => simpa using ih (attempt + 1) (clock + tr.duration attempt + delay)
    | reqError m =>
        cases f with
        | zero => right; rfl
        | succ f2 => simpa using ih (attempt + 1) (clock + tr.duration attempt + delay)

/-- When the first `k` attempts fail and attempt `k` succeeds within the
available fuel, the loop returns the success tuple of attempt `k`: its
load time is the clock after that attempt, which has accumulated the
durations of all `k + 1` attempts and the `k` inter-retry sleeps. -/
theorem probeLoop_success (url : String) (tr : Transport) (delay : Nat)
    (sc : Int) (fu : String) (hs : List (String × String)) :
    ∀ k fuel attempt clock, k < fuel →
      (∀ i, i < k → (tr.outcome (attempt + i)).isOk = false) →
      tr.outcome (attempt + k) = .ok sc fu hs →
      probeLoop url tr delay fuel attempt clock =
        ⟨⟨some sc,
          (if url ≠ fu then "Redirected to: " ++ fu else "No redirection"),
          some (clock + (∑ i ∈ Finset.range (k + 1), tr.duration (attempt + i)) + k * delay),
          some hs⟩, k + 1, k⟩ := by
  intro k
  induction k with
  | zero =>
    intro fuel attempt clock hk hfail hok
    cases fuel with
    | zero => omega
    | succ f =>
      rw [Nat.add_zero] at hok
      rw [probeLoop, hok]
      simp [Finset.sum_range_one]
  | succ k ih =>
    intro fuel attempt clock hk hfail hok
    cases fuel with
    | zero => omega
    | succ f =>
      have h0 := hfail 0 (Nat.succ_pos k)
      rw [Nat.add_zero] at h0
      cases f with
      | zero => omega
      | succ f2 =>
        have hshift : ∀ i, i < k → (tr.outcome (attempt + 1 + i)).isOk = false := by
          intro i hi
          have := hfail (i + 1) (by omega)
          rwa [show attempt + (i + 1) = attempt + 1 + i by omega] at this
        have hok2 : tr.outcome (attempt + 1 + k) = .ok sc fu hs := by
          rwa [show attempt + 1 + k = attempt + (k + 1) by omega]
        have hrec := ih (f2 + 1) (attempt + 1) (clock + tr.duration attempt + delay)
          (by omega) hshift hok2
        have hsum : clock + tr.duration attempt + delay
              + (∑ i ∈ Finset.range (k + 1), tr.duration (attempt + 1 + i)) + k * delay
            = clock + (∑ i ∈ Finset.range (k + 1 + 1), tr.duration (attempt + i))
              + (k + 1) * delay := by
          conv_rhs => rw [Finset.sum_range_succ']
          have hcg : ∀ i ∈ Finset.range (k + 1),
              tr.duration (attempt + (i + 1)) = tr.duration (attempt + 1 + i) := by
            intro i _
            rw [show attempt + (i + 1) = attempt + 1 + i by omega]
          rw [Finset.sum_congr rfl hcg]
          simp only [Nat.add_zero]
          ring
        rw [probeLoop]
        cases h : tr.outcome attempt with
        | ok a b c => rw [h] at h0; simp [AttemptOutcome.isOk] at h0
        | timeout => simp [hrec, ← hsum]
        | reqError m => simp [hrec, ← hsum]

/-- When `validate_args` rejects the arguments, the message list it logged
is non-empty: the failing check is reported. -/
theorem validate_args_false_msgs (a : Args) (h : (validate_args a).1 = false) :
    (validate_args a).2 ≠ [] := by
  rw [validate_args] at h ⊢
  by_cases h1 : a.timeout ≤ 0
  · simp [h1]
  · by_cases h2 : a.retries < 0
    · simp [h1, h2]
    · by_cases h3 : a.retry_delay < 0
      · simp [h1, h2, h3]
      · simp [h1, h2, h3] at h

/-- When `validate_args` accepts the arguments, the three numeric bounds it
checks all hold. -/
theorem validate_args_true_bounds (a : Args) (h : (validate_args a).1 = true) :
    0 < a.timeout ∧ 0 ≤ a.retries ∧ 0 ≤ a.retry_delay := by
  rw [validate_args] at h
  by_cases h1 : a.timeout ≤ 0
  · simp [h1] at h
  · by_cases h2 : a.retries < 0
    · simp [h1, h2] at h
    · by_cases h3 : a.retry_delay < 0
      · simp [h1, h2, h3] at h
      · omega

/-- In any state the pool can reach, the number of in-flight tasks never
exceeds the worker count, provided it did not initially. -/
theorem poolReach_le (w : Nat) (init s : PoolState)
    (hinit : init.running.length ≤ w) (h : PoolReach w init s) :
    s.running.length ≤ w := by
  induction h with
  | refl => exact hinit
  | step hr hstep ih =>
      cases hstep with
      | start u rest s2 hp hlt => simpa using hlt
      | finish u l r s2 hrun =>
          rw [hrun] at ih
          simp only [List.length_append, List.length_cons] at ih ⊢
          omega

/-- C1 (counterexample): with a retry ceiling of 0 the while-loop guard
fails immediately, so the code issues zero HTTP attempts — not the exactly
one attempt the claim states — and the returned description is
"Max retries reached", not the transport-classified error ("boom" here)
verbatim. -/
theorem zeroRetries_cex :
    (get_url_status "http://a" trBoom 0 2).attempts = 0 ∧
    (get_url_status "http://a" trBoom 0 2).ret.redirection = "Max retries reached" ∧
    (0 : Nat) ≠ 1 ∧ "Max retries reached" ≠ "boom" := by
  refine ⟨rfl, rfl, by decide, by decide⟩

/-- C1 (amended): for a probe invoked with a retry ceiling of 0, no HTTP
attempt is made at all, no sleep happens, and the returned tuple is the
failure with description "Max retries reached". -/
theorem zeroRetries_amended (url : String) (tr : Transport) (delay : Nat) :
    get_url_status url tr 0 delay =
      ⟨⟨none, "Max retries reached", none, none⟩, 0, 0⟩ := rfl

/-- C2 (counterexample): a probe whose attempt 0 fails after 5 time units,
then sleeps for the retry delay of 2, and succeeds on attempt 1 in 3 time
units reports a load time of 10, not the 3 units the succeeding attempt
itself took: start_time is taken once before the loop, so earlier failed
attempts and inter-retry sleeps do contribute to the reported duration. -/
theorem loadTime_cex :
    (get_url_status "u" trFailThenOk 2 2).ret.status_code = some 200 ∧
    (trFailThenOk.outcome 0).isOk = false ∧
    trFailThenOk.outcome 1 = .ok 200 "u" [] ∧
    trFailThenOk.duration 1 = 3 ∧
    (get_url_status "u" trFailThenOk 2 2).ret.load_time = some 10 ∧
    some (10 : Nat) ≠ some (3 : Nat) := by
  refine ⟨rfl, rfl, rfl, rfl, rfl, by decide⟩

/-- C2 (amended): the elapsed duration reported on a Success is measured
from the single start_time recorded before the first attempt, so it is the
sum of the durations of all attempts up to and including the succeeding
attempt `k`, plus one retry delay per preceding failed attempt. -/
theorem loadTime_amended (url : String) (tr : Transport) (retries : Int)
    (delay : Nat) (k : Nat) (sc : Int) (fu : String)
    (hs : List (String × String)) (hk : k < retries.toNat)
    (hfail : ∀ i, i < k → (tr.outcome i).isOk = false)
    (hok : tr.outcome k = .ok sc fu hs) :
    (get_url_status url tr retries delay).ret.load_time =
      some ((∑ i ∈ Finset.range (k + 1), tr.duration i) + k * delay) := by
  have h := probeLoop_success url tr delay sc fu hs k retries.toNat 0 0 hk
    (by intro i hi; simpa using hfail i hi) (by simpa using hok)
  rw [get_url_status, h]
  simp

/-- Witness for the amended C2 at a concrete input: one failed attempt of
duration 5, one sleep of 2, success of duration 3, total 10. -/
theorem loadTime_amended_witness :
    (get_url_status "u" trFailThenOk 2 2).ret.load_time =
      some ((∑ i ∈ Finset.range (1 + 1), trFailThenOk.duration i) + 1 * 2) :=
  loadTime_amended "u" trFailThenOk 2 2 1 200 "u" [] (by decide)
    (fun i hi => by
      have h0 : i = 0 := by omega
      subst h0
      rfl)
    rfl

/-- C3: when the transport fails on every attempt and the retry ceiling is
at least 1, the probe issues exactly `retries` HTTP attempts with exactly
`retries - 1` sleeps of the retry delay between consecutive attempts, and
returns the failure tuple with description "Max retries reached". -/
theorem allFail_attempts (url : String) (tr : Transport) (retries : Int)
    (delay : Nat) (h1 : 1 ≤ retries)
    (hfail : ∀ i, (tr.outcome i).isOk = false) :
    ((get_url_status url tr retries delay).attempts : Int) = retries ∧
    ((get_url_status url tr retries delay).sleeps : Int) = retries - 1 ∧
    (get_url_status url tr retries delay).ret =
      ⟨none, "Max retries reached", none, none⟩ := by
  have h := probeLoop_allFail url tr delay hfail retries.toNat 0 0
  rw [get_url_status, h]
  refine ⟨?_, ?_, rfl⟩ <;> simp <;> omega

/-- Witness for C3 at a concrete always-failing transport and retries = 3:
3 attempts, 2 sleeps, max-retries failure. -/
theorem allFail_attempts_witness :
    ((get_url_status "http://a" trBoom 3 2).attempts : Int) = 3 ∧
    ((get_url_status "http://a" trBoom 3 2).sleeps : Int) = 3 - 1 ∧
    (get_url_status "http://a" trBoom 3 2).ret =
      ⟨none, "Max retries reached", none, none⟩ :=
  allFail_attempts "http://a" trBoom 3 2 (by decide) (fun i => rfl)

/-- C4 (counterexample): with the present status-filter value 0 and one
Failure outcome, the claim says every Failure is dropped, but the code's
truthiness test treats the filter 0 as absent and retains the Failure
record. -/
theorem statusFilter_cex :
    check_urls [("http://c", ⟨none, "Max retries reached", none, none⟩)] false (some 0) =
      [⟨"http://c", some "Max retries reached", none, none, none, none⟩] ∧
    check_urls [("http://c", ⟨none, "Max retries reached", none, none⟩)] false (some 0) ≠
      [] := by
  refine ⟨rfl, by decide⟩

/-- C4 (amended): for every present non-zero status filter value `f`, the
aggregation retains exactly the Success outcomes whose status code equals
`f` (every Failure is dropped); with no filter, all outcomes — Success and
Failure alike — are retained. -/
theorem statusFilter_amended (completed : List (String × ProbeReturn))
    (verbose : Bool) (f : Int) (hf : f ≠ 0) :
    check_urls completed verbose (some f) =
      (completed.filter fun p => p.2.status_code == some f).map
        (fun p => buildRecord verbose p.1 p.2) ∧
    check_urls completed verbose none =
      completed.map fun p => buildRecord verbose p.1 p.2 := by
  constructor
  · induction completed with
    | nil => rfl
    | cons hd tl ih =>
        obtain ⟨url, pr⟩ := hd
        rw [check_urls]
        cases hsc : pr.status_code with
        | none => simp [pyTruthy, pyNe, hf, hsc, List.filter_cons, ih]
        | some s =>
            by_cases hsf : s = f
            · subst hsf
              simp [pyTruthy, pyNe, hf, hsc, List.filter_cons, ih]
            · simp [pyTruthy, pyNe, hf, hsc, hsf, List.filter_cons, ih]
  · induction completed with
    | nil => rfl
    | cons hd tl ih =>
        obtain ⟨url, pr⟩ := hd
        rw [check_urls]
        simp [pyTruthy, ih]

/-- Witness for the amended C4 on a sample with statuses 404, 200 and a
failure, filtered by 404. -/
theorem statusFilter_amended_witness :
    (check_urls exampleCompleted true (some 404) =
      (exampleCompleted.filter fun p => p.2.status_code == some 404).map
        (fun p => buildRecord true p.1 p.2) ∧
    check_urls exampleCompleted true none =
      exampleCompleted.map fun p => buildRecord true p.1 p.2) :=
  statusFilter_amended exampleCompleted true 404 (by decide)

/-- C5: whenever the timeout is non-positive, or retries or the retry
delay is negative, or some input URL fails `validate_url`, `main` aborts
before any network call: zero HTTP attempts are issued, no result records
are produced, and the abort names what was invalid (a non-empty argument
error message, or the non-empty list of exactly the invalid URLs). -/
theorem validation_gate (tr : String → Transport) (a : Args)
    (h : a.timeout ≤ 0 ∨ a.retries < 0 ∨ a.retry_delay < 0 ∨
      ∃ u ∈ a.urls, validate_url u = false) :
    (main tr a).2 = 0 ∧
    (∀ records, (main tr a).1 ≠ .ran records) ∧
    (∀ msgs, (main tr a).1 = .abortedArgs msgs → msgs ≠ []) ∧
    (∀ invalid, (main tr a).1 = .abortedUrls invalid →
      invalid ≠ [] ∧ ∀ u ∈ invalid, validate_url u = false) := by
  by_cases hv : (validate_args a).1 = false
  · have hmain : main tr a = (.abortedArgs (validate_args a).2, 0) := by
      rw [main, if_pos hv]
    rw [hmain]
    refine ⟨rfl, ?_, ?_, ?_⟩
    · intro records hcon
      exact MainResult.noConfusion hcon
    · intro msgs hmsgs
      injection hmsgs with hmsgs
      exact hmsgs ▸ validate_args_false_msgs a hv
    · intro invalid hcon
      exact MainResult.noConfusion hcon
  · have ht : (validate_args a).1 = true := by
      simpa using hv
    obtain ⟨hb1, hb2, hb3⟩ := validate_args_true_bounds a ht
    have hex : ∃ u ∈ a.urls, validate_url u = false := by
      rcases h with h | h | h | h
      · omega
      · omega
      · omega
      · exact h
    obtain ⟨u, hu, hvu⟩ := hex
    have hmem : u ∈ a.urls.filter fun x => !validate_url x :=
      List.mem_filter.mpr ⟨hu, by simp [hvu]⟩
    have hne : a.urls.filter (fun x => !validate_url x) ≠ [] :=
      List.ne_nil_of_mem hmem
    have hmain : main tr a =
        (.abortedUrls (a.urls.filter fun x => !validate_url x), 0) := by
      rw [main, if_neg hv]
      simp only []
      rw [if_pos hne]
    rw [hmain]
    refine ⟨rfl, ?_, ?_, ?_⟩
    · intro records hcon
      exact MainResult.noConfusion hcon
    · intro msgs hcon
      exact MainResult.noConfusion hcon
    · intro invalid hinv
      injection hinv with hinv
      subst hinv
      refine ⟨hne, ?_⟩
      intro x hx
      have := (List.mem_filter.mp hx).2
      simpa using this

/-- Witness for C5 at a concrete invocation whose timeout is 0. -/
theorem validation_gate_witness :
    (main (fun _ => trBoom) argsBadTimeout).2 = 0 ∧
    (∀ records, (main (fun _ => trBoom) argsBadTimeout).1 ≠ .ran records) ∧
    (∀ msgs, (main (fun _ => trBoom) argsBadTimeout).1 = .abortedArgs msgs →
      msgs ≠ []) ∧
    (∀ invalid, (main (fun _ => trBoom) argsBadTimeout).1 = .abortedUrls invalid →
      invalid ≠ [] ∧ ∀ u ∈ invalid, validate_url u = false) :=
  validation_gate (fun _ => trBoom) argsBadTimeout (Or.inl (by decide))

/-- C6: `validate_url` returns true exactly when parsing the string yields
both a non-empty scheme component and a non-empty netloc component (a
parse error counts as neither); the function is pure, with no network
access. -/
theorem validate_url_iff (s : String) :
    validate_url s = true ↔
      ∃ scheme netloc, urlparse s = .ok (scheme, netloc) ∧
        scheme ≠ "" ∧ netloc ≠ "" := by
  rw [validate_url]
  cases h : urlparse s with
  | ok p =>
      obtain ⟨scheme, netloc⟩ := p
      simp only [bne_iff_ne, Bool.and_eq_true, Except.ok.injEq, Prod.mk.injEq]
      constructor
      · rintro ⟨h1, h2⟩
        exact ⟨scheme, netloc, ⟨rfl, rfl⟩, h1, h2⟩
      · rintro ⟨a, b, ⟨rfl, rfl⟩, h1, h2⟩
        exact ⟨h1, h2⟩
  | error e => simp

/-- C7: on a probe that succeeds at attempt `k`, the outcome's status code
is the transport's, and the redirection description is
"Redirected to: " followed by the final URL exactly when the final URL
differs from the requested URL, and "No redirection" otherwise. -/
theorem redirection_desc (url : String) (tr : Transport) (retries : Int)
    (delay : Nat) (k : Nat) (sc : Int) (fu : String)
    (hs : List (String × String)) (hk : k < retries.toNat)
    (hfail : ∀ i, i < k → (tr.outcome i).isOk = false)
    (hok : tr.outcome k = .ok sc fu hs) :
    (get_url_status url tr retries delay).ret.status_code = some sc ∧
    (get_url_status url tr retries delay).ret.redirection =
      (if url ≠ fu then "Redirected to: " ++ fu else "No redirection") := by
  have h := probeLoop_success url tr delay sc fu hs k retries.toNat 0 0 hk
    (by intro i hi; simpa using hfail i hi) (by simpa using hok)
  rw [get_url_status, h]
  exact ⟨rfl, rfl⟩

/-- Witness for C7 at a transport that redirects "http://b" to
"http://b/final" on its first attempt. -/
theorem redirection_desc_witness :
    (get_url_status "http://b" trRedir 1 1).ret.status_code = some 200 ∧
    (get_url_status "http://b" trRedir 1 1).ret.redirection =
      (if "http://b" ≠ "http://b/final" then "Redirected to: " ++ "http://b/final"
       else "No redirection") :=
  redirection_desc "http://b" trRedir 1 1 0 200 "http://b/final" [("k", "v")]
    (by decide) (fun i hi => absurd hi (Nat.not_lt_zero i)) rfl

/-- C8: the worker pool of `check_urls` has size min(number of URLs, 10),
and in every state the executor can reach from the initial submission, the
number of in-flight probes stays within min(number of URLs, 10). -/
theorem pool_bound (urls : List String) (s : PoolState)
    (h : PoolReach (max_workers urls) (initPool urls) s) :
    max_workers urls = min urls.length 10 ∧
    s.running.length ≤ min urls.length 10 := by
  refine ⟨rfl, ?_⟩
  have hb := poolReach_le (max_workers urls) (initPool urls) s
    (by simp [initPool]) h
  simpa [max_workers] using hb

/-- Witness for C8 at a two-URL pool in its initial state. -/
theorem pool_bound_witness :
    max_workers ["http://a", "http://b"] = min (["http://a", "http://b"].length) 10 ∧
    (initPool ["http://a", "http://b"]).running.length ≤
      min (["http://a", "http://b"].length) 10 :=
  pool_bound ["http://a", "http://b"] (initPool ["http://a", "http://b"])
    PoolReach.refl

/-- C9: a status filter whose integer value is 0 is falsy in the code's
truthiness test, so it behaves as if absent: every outcome, Success of any
status and Failure alike, is retained. -/
theorem statusFilter_zero (completed : List (String × ProbeReturn))
    (verbose : Bool) :
    check_urls completed verbose (some 0) =
      completed.map fun p => buildRecord verbose p.1 p.2 := by
  induction completed with
  | nil => rfl
  | cons hd tl ih =>
      obtain ⟨url, pr⟩ := hd
      rw [check_urls]
      simp [pyTruthy, ih]

/-- C10: every probe outcome is exactly one of a full Success (status code
present together with load time and headers) or the failure tuple (status
code, load time and headers all absent), and the record built from a
failure holds only the URL and the error description, with no status code,
load time, redirection or headers key. -/
theorem outcome_invariant (url : String) (tr : Transport) (retries : Int)
    (delay : Nat) (verbose : Bool) :
    ((get_url_status url tr retries delay).ret.status_code.isSome ↔
      (get_url_status url tr retries delay).ret.load_time.isSome) ∧
    ((get_url_status url tr retries delay).ret.status_code.isSome ↔
      (get_url_status url tr retries delay).ret.resp_headers.isSome) ∧
    ((get_url_status url tr retries delay).ret.status_code = none →
      (get_url_status url tr retries delay).ret.load_time = none ∧
      (get_url_status url tr retries delay).ret.resp_headers = none ∧
      buildRecord verbose url (get_url_status url tr retries delay).ret =
        ⟨url, some "Max retries reached", none, none, none, none⟩) := by
  have h := probeLoop_shape url tr delay retries.toNat 0 0
  rw [get_url_status]
  rcases h with ⟨sc, lt, hs, hret⟩ | hret <;> rw [hret] <;> simp [buildRecord]

end UrlStatusChecker
